import Mathlib

/-!
Verification of the WhatsApp chat-analysis engine.

This file gives a shallow embedding, in Lean, of the analysis functions of
the repository (`analyzer.py`, plus the message-type mapping of
`database_reader.py`) and proves, or refutes, the specification claims
about them.

Modelling conventions:
* a pandas DataFrame of messages is a `List Msg`; a cell that can be null
  (NaN / NaT) is an `Option`;
* column presence is table-level in pandas, so where a claim depends on a
  column being absent the table is wrapped in a structure carrying
  presence flags (`GenTable`, `AState`);
* `timestamp` and `datetime` are integer milliseconds since the epoch
  (the reader derives `datetime` from `timestamp` with `unit='ms'`);
* `groupby` enumerates its keys deduplicated in ascending order, which is
  pandas' default (`sort=True`); `sort_values` is modelled by a stable
  insertion sort, a legitimate refinement of the unspecified tie order of
  pandas' default quicksort;
* python float arithmetic is modelled by exact rationals, and `round(2)`
  by exact decimal round-half-to-even.
-/

/- Rational arithmetic is `@[irreducible]` upstream; witnesses evaluate
concrete tables, so restore reducibility for kernel evaluation. -/
attribute [local semireducible] Rat.add Rat.sub Rat.mul Rat.inv

/-! ### Classifier: `WhatsAppAnalyzer.get_message_type_distribution`
    and `WhatsAppDatabaseReader._map_message_type_to_media` -/

/-- The closed category set of `get_message_type_distribution`. -/
inductive Category where
  | Text | Image | Video | Audio | Document | Sticker
  | Location | Contact | GIF | Other
deriving DecidableEq

/-- The per-row branch of `get_message_type_distribution`
(analyzer.py lines 163-185): null or 0 is Text, the nine known codes map
to their fixed category, anything else is Other. -/
def classifyMediaType : Option Int → Category
  | none => .Text
  | some c =>
    if c = 0 then .Text
    else if c = 1 then .Image
    else if c = 2 then .Audio
    else if c = 3 then .Video
    else if c = 4 then .Contact
    else if c = 5 then .Location
    else if c = 13 then .GIF
    else if c = 20 then .Sticker
    else if c = 9 then .Document
    else .Other

/-- `_map_message_type_to_media` (database_reader.py lines 128-153):
null is 0 (Text); the fixed `type_map` dictionary translates known raw
provider codes; `type_map.get(int(msg_type), 0)` defaults every unknown
code to 0. -/
def mapMessageTypeToMedia : Option Int → Int
  | none => 0
  | some c =>
    if c = 0 then 0
    else if c = 1 then 1
    else if c = 2 then 2
    else if c = 3 then 3
    else if c = 4 then 4
    else if c = 5 then 5
    else if c = 7 then 9
    else if c = 8 then 2
    else if c = 9 then 9
    else if c = 13 then 13
    else if c = 14 then 2
    else if c = 15 then 1
    else if c = 20 then 20
    else if c = 26 then 3
    else if c = 42 then 9
    else if c = 43 then 9
    else 0

/-- The raw provider codes that `_map_message_type_to_media` knows. -/
def ingestionKnownCodes : List Int := [0, 1, 2, 3, 4, 5, 7, 8, 9, 13, 14, 15, 20, 26, 42, 43]

/-- The canonical codes that `get_message_type_distribution` knows. -/
def analyzerKnownCodes : List Int := [0, 1, 2, 3, 4, 5, 9, 13, 20]

/-! ### Identity resolver: `WhatsAppAnalyzer.get_contact_name` -/

/-- One row of the contacts DataFrame (`wa_contacts`). A null cell
(NaN, for which `pd.notna` is false) is `none`. -/
structure ContactRow where
  jid : String
  display_name : Option String
  given_name : Option String
deriving DecidableEq

/-- `pat.toList` begins the character list `l`. -/
def charsLead : List Char → List Char → Bool
  | [], _ => true
  | _ :: _, [] => false
  | a :: as, b :: bs => a == b && charsLead as bs

/-- Substring test on character lists (python's `pat in s`). -/
def containsFrom (pat : List Char) : List Char → Bool
  | [] => pat.isEmpty
  | b :: bs => charsLead pat (b :: bs) || containsFrom pat bs

/-- Python's `pat in s` on strings. -/
def strContains (s pat : String) : Bool := containsFrom pat.toList s.toList

/-- Python's `s.split(sep)[0]` for a one-character separator:
the text before the first occurrence, the whole string if none. -/
def localPart (s : String) (sep : Char) : String :=
  String.mk (s.toList.takeWhile (fun c => c ≠ sep))

/-- Python's truthiness-plus-checks `name and name != 'None' and name.strip()`
(analyzer.py lines 63 and 67). -/
def validName (n : String) : Bool :=
  (n ≠ "") && (n ≠ "None") && n.toList.any (fun c => !c.isWhitespace)

/-- Contact-name lookup, analyzer.py lines 58-68.  Note the `elif`:
`given_name` is examined only when the `display_name` cell is null, not
when it holds an invalid (empty or "None") string. -/
def lookupName (contacts : List ContactRow) (cid : String) : Option String :=
  if contacts.isEmpty then none
  else
    match contacts.find? (fun r => r.jid == cid) with
    | none => none
    | some ct =>
      match ct.display_name with
      | some dn => if validName dn then some dn else none
      | none =>
        match ct.given_name with
        | some gn => if validName gn then some gn else none
        | none => none

/-- The `+`-prefixing of analyzer.py lines 72-76 (and 80-82). -/
def formatPhone (p : String) : String :=
  if charsLead ['+'] p.toList then p else "+" ++ p

/-- `WhatsAppAnalyzer.get_contact_name` (analyzer.py lines 42-89).
`lidMap` is the lid-map DataFrame as (lid_jid, normal_jid) pairs;
`none` input models a null (NaN) chat id. -/
def getContactName (lidMap : List (String × String)) (contacts : List ContactRow)
    (chatId : Option String) : String :=
  match chatId with
  | none => "Bilinmeyen"
  | some original =>
    let cid :=
      if strContains original "@lid" && !lidMap.isEmpty then
        match lidMap.find? (fun p => p.1 == original) with
        | some p => p.2
        | none => original
      else original
    match lookupName contacts cid with
    | some n => n
    | none =>
      if strContains cid "@s.whatsapp.net" then
        formatPhone (localPart cid '@')
      else if strContains original "@lid" then
        if cid != original && strContains cid "@s.whatsapp.net" then
          formatPhone (localPart cid '@')
        else localPart original '@'
      else if strContains cid "@" then localPart cid '@'
      else cid


/-! ### Message data model -/

/-- One row of the messages DataFrame produced by
`WhatsAppDatabaseReader.get_messages` after the derived columns added in
`WhatsAppAnalyzer.__init__`.  `datetime` (and the raw `timestamp`) are in
milliseconds; `hour` and `day_of_week` are the derived calendar columns;
`message_text_str` is the lowercased column that `get_messages_by_keyword`
adds to the table. -/
structure Msg where
  message_id : Nat
  chat_id : String
  from_me : Int
  timestamp : Int
  datetime : Int
  hour : Nat
  day_of_week : Nat
  media_type : Option Int
  message_text : Option String
  is_group : Bool
  message_text_str : Option String
deriving DecidableEq

/-- Ascending order on the `timestamp` column (`sort_values('timestamp')`). -/
def tsLE (a b : Msg) : Prop := a.timestamp ≤ b.timestamp

instance : DecidableRel tsLE := fun _ _ => Int.decLe _ _
instance : IsTotal Msg tsLE := ⟨fun _ _ => Int.le_total _ _⟩
instance : IsTrans Msg tsLE := ⟨fun _ _ _ h1 h2 => le_trans h1 h2⟩

/-- Ascending order on the `datetime` column (`sort_values('datetime')`). -/
def dtLE (a b : Msg) : Prop := a.datetime ≤ b.datetime

instance : DecidableRel dtLE := fun _ _ => Int.decLe _ _
instance : IsTotal Msg dtLE := ⟨fun _ _ => Int.le_total _ _⟩
instance : IsTrans Msg dtLE := ⟨fun _ _ _ h1 h2 => le_trans h1 h2⟩

/-- pandas `groupby` key enumeration: deduplicated keys in ascending
order (`sort=True` is the default). -/
def groupKeysNat (l : List Nat) : List Nat :=
  List.insertionSort (fun a b => a ≤ b) l.dedup

/-- `groupby('chat_id')` key enumeration over string keys. -/
def groupKeysStr (l : List String) : List String :=
  List.insertionSort (fun a b => a ≤ b) l.dedup

/-! ### Rounding: pandas `.round(2)` -/

/-- Round a rational to the nearest integer, halves to even
(numpy/pandas rounding). -/
def roundHalfEven (x : ℚ) : ℤ :=
  let f := ⌊x⌋
  let r := x - (f : ℚ)
  if r < 1/2 then f
  else if 1/2 < r then f + 1
  else if f % 2 = 0 then f else f + 1

/-- pandas `.round(2)`: round to two decimal places. -/
def round2 (x : ℚ) : ℚ := (roundHalfEven (100 * x) : ℚ) / 100

/-! ### `WhatsAppAnalyzer.get_top_contacts` -/

/-- One row of the DataFrame returned by `get_top_contacts`. -/
structure ContactStat where
  chat_id : String
  total_messages : Nat
  sent_by_me : Nat
  last_message : Int
  received : Nat
  contact_name : String
  balance_score : ℚ
deriving DecidableEq

/-- Descending order on `total_messages`
(`sort_values('total_messages', ascending=False)`). -/
def byTotalDesc (a b : ContactStat) : Prop := b.total_messages ≤ a.total_messages

instance : DecidableRel byTotalDesc := fun _ _ => Nat.decLe _ _
instance : IsTotal ContactStat byTotalDesc := ⟨fun _ _ => Nat.le_total _ _⟩
instance : IsTrans ContactStat byTotalDesc := ⟨fun _ _ _ h1 h2 => le_trans h2 h1⟩

/-- `max` aggregation over a non-empty group (`'datetime': 'max'`);
the default is never used because groups are non-empty. -/
def maxIntD : List Int → Int
  | [] => 0
  | x :: t => t.foldl max x

/-- `min` aggregation over a non-empty column. -/
def minIntD : List Int → Int
  | [] => 0
  | x :: t => t.foldl min x

/-- `WhatsAppAnalyzer.get_top_contacts` (analyzer.py lines 227-252):
keep non-group rows, group by `chat_id`, count messages and sent-by-me,
take the latest datetime, resolve the contact name, compute the smoothed
balance score, sort by total descending and keep `limit` rows. -/
def getTopContacts (lidMap : List (String × String)) (contacts : List ContactRow)
    (rows : List Msg) (limit : Nat) : List ContactStat :=
  let personal := rows.filter (fun m => m.is_group == false)
  let keys := groupKeysStr (personal.map (fun m => m.chat_id))
  let stats := keys.map (fun cid =>
    let grp := personal.filter (fun m => m.chat_id == cid)
    let total := grp.length
    let sent := (grp.filter (fun m => m.from_me == 1)).length
    { chat_id := cid
      total_messages := total
      sent_by_me := sent
      last_message := maxIntD (grp.map (fun m => m.datetime))
      received := total - sent
      contact_name := getContactName lidMap contacts (some cid)
      balance_score := round2 ((sent : ℚ) / ((total : ℚ) + 1)) })
  (List.insertionSort byTotalDesc stats).take limit

/-! ### Analyzer state and `get_conversation_with_contact`,
    `get_messages_by_keyword` -/

/-- The analyzer's mutable `self.messages` table: its rows plus whether
the derived `message_text_str` column has been added to it. -/
structure AState where
  rows : List Msg
  hasTextStr : Bool
deriving DecidableEq

/-- `WhatsAppAnalyzer.get_conversation_with_contact`
(analyzer.py lines 407-425): filter to one `chat_id`, sort ascending by
`timestamp`, and when more than `limit` rows remain keep the tail.  The
result carries every column of `self.messages`, so the Bool records
whether the returned frame includes the derived `message_text_str`
column. -/
def getConversationWithContact (st : AState) (cid : String) (limit : Nat) :
    List Msg × Bool :=
  let conv := st.rows.filter (fun m => m.chat_id == cid)
  if conv.isEmpty then ([], false)
  else
    let sorted := List.insertionSort tsLE conv
    if limit < sorted.length then (sorted.drop (sorted.length - limit), st.hasTextStr)
    else (sorted, st.hasTextStr)

/-- Per-character lowercasing (python `str.lower()`, ASCII fragment). -/
def lowerStr (s : String) : String := String.mk (s.toList.map Char.toLower)

/-- The per-row effect of line 554 of analyzer.py: the value the new
`message_text_str` column gets (`str(x).lower() if pd.notna(x) else ''`). -/
def addTextStrCol (m : Msg) : Msg :=
  { m with message_text_str := some (match m.message_text with
      | some t => lowerStr t
      | none => "") }

/-- `WhatsAppAnalyzer.get_messages_by_keyword`
(analyzer.py lines 548-566).  The first component is the state of
`self.messages` after the call: the function assigns a new
`message_text_str` column to the shared table before filtering, so the
call mutates the analyzer state.  (The pandas code matches with
`str.contains`; the plain-substring reading modelled here is what the
claims exercise.) -/
def getMessagesByKeyword (st : AState) (keyword : String) (limit : Nat) :
    AState × List Msg :=
  let rows2 := st.rows.map addTextStrCol
  let st2 : AState := ⟨rows2, true⟩
  let hits := rows2.filter (fun m =>
    strContains (m.message_text_str.getD "") (lowerStr keyword))
  (st2, if hits.isEmpty then [] else hits.take limit)

/-- Drop the derived `message_text_str` column from a row. -/
def eraseTextStr (m : Msg) : Msg := { m with message_text_str := none }

/-! ### `WhatsAppAnalyzer.get_message_response_time_analysis` -/

/-- `self.messages['chat_id'].unique()`: first-occurrence order;
membership is all that the proofs use. -/
def uniqueChatIds (rows : List Msg) : List String := (rows.map (fun m => m.chat_id)).dedup

/-- Adjacent pairs `(iloc[i-1], iloc[i])` of a list. -/
def consecutivePairs (l : List Msg) : List (Msg × Msg) := l.zip l.tail

/-- One chat's messages sorted ascending by `datetime`
(analyzer.py line 577). -/
def chatSortedByDatetime (rows : List Msg) (cid : String) : List Msg :=
  List.insertionSort dtLE (rows.filter (fun m => m.chat_id == cid))

/-- The retained response-time sample (analyzer.py lines 574-588): for
every adjacent pair of a chat with `from_me` 0 then 1, the delta in
minutes, kept when strictly between 0 and 1440. -/
def responseDeltas (rows : List Msg) : List ℚ :=
  (uniqueChatIds rows).flatMap (fun cid =>
    (consecutivePairs (chatSortedByDatetime rows cid)).filterMap (fun pc =>
      if pc.1.from_me == 0 && pc.2.from_me == 1 then
        let d : ℚ := ((pc.2.datetime - pc.1.datetime : ℤ) : ℚ) / 60000
        if 0 < d ∧ d < 1440 then some d else none
      else none))

/-- `np.mean` over the sample. -/
def meanQ (l : List ℚ) : ℚ := l.sum / l.length

/-- `np.median`: middle element of the ascending sample, or the average
of the two middle elements for an even-sized sample. -/
def medianQ (l : List ℚ) : ℚ :=
  let s := List.insertionSort (fun a b : ℚ => a ≤ b) l
  if s.length % 2 = 1 then s.getD (s.length / 2) 0
  else (s.getD (s.length / 2 - 1) 0 + s.getD (s.length / 2) 0) / 2

/-- `np.min` over a non-empty sample. -/
def minQ : List ℚ → ℚ
  | [] => 0
  | x :: t => t.foldl min x

/-- `np.max` over a non-empty sample. -/
def maxQ : List ℚ → ℚ
  | [] => 0
  | x :: t => t.foldl max x

/-- The statistics dictionary returned by
`get_message_response_time_analysis`. -/
structure RTStats where
  avg : ℚ
  median : ℚ
  minimum : ℚ
  maximum : ℚ
deriving DecidableEq

/-- `WhatsAppAnalyzer.get_message_response_time_analysis`
(analyzer.py lines 568-598): `none` models the empty dictionary returned
for an empty sample. -/
def responseTimeAnalysis (rows : List Msg) : Option RTStats :=
  let d := responseDeltas rows
  if d.isEmpty then none
  else some ⟨meanQ d, medianQ d, minQ d, maxQ d⟩

/-! ### Histograms: `get_messages_by_hour`, `get_messages_by_day_of_week`,
    `get_activity_heatmap_data` -/

/-- The Turkish day names of analyzer.py line 206. -/
def dayNames : List String :=
  ["Pazartesi", "Salı", "Çarşamba", "Perşembe", "Cuma", "Cumartesi", "Pazar"]

/-- `day_names[int(i)] if i < len(day_names) else str(i)`. -/
def dayLabel (d : Nat) : String :=
  if d < 7 then dayNames.getD d "" else toString d

/-- `WhatsAppAnalyzer.get_messages_by_hour` (analyzer.py lines 215-225):
`groupby('hour').size()` — one row per hour value present in the data,
keys ascending. -/
def getMessagesByHour (rows : List Msg) : List (Nat × Nat) :=
  (groupKeysNat (rows.map (fun m => m.hour))).map
    (fun h => (h, (rows.filter (fun m => m.hour == h)).length))

/-- `WhatsAppAnalyzer.get_messages_by_day_of_week`
(analyzer.py lines 201-213): `groupby('day_of_week').size()` with the
day index replaced by its localized name. -/
def getMessagesByDayOfWeek (rows : List Msg) : List (String × Nat) :=
  (groupKeysNat (rows.map (fun m => m.day_of_week))).map
    (fun d => (dayLabel d, (rows.filter (fun m => m.day_of_week == d)).length))

/-- `WhatsAppAnalyzer.get_activity_heatmap_data`
(analyzer.py lines 387-397): `groupby(['day_of_week','hour']).size()
.unstack(fill_value=0)` — one row per observed day, one column per
observed hour, missing combinations filled with 0. -/
def getActivityHeatmapData (rows : List Msg) : List (String × List (Nat × Nat)) :=
  let days := groupKeysNat (rows.map (fun m => m.day_of_week))
  let hours := groupKeysNat (rows.map (fun m => m.hour))
  days.map (fun d => (dayLabel d,
    hours.map (fun h =>
      (h, (rows.filter (fun m => m.day_of_week == d && m.hour == h)).length))))

/-! ### `WhatsAppAnalyzer.get_general_statistics` -/

/-- A value of the statistics dictionary. -/
inductive StatVal where
  | num (v : Int)
  | str (v : String)
deriving DecidableEq

/-- The messages DataFrame together with column-presence flags for the
columns `get_general_statistics` consults; in pandas a column is either
present for the whole table or absent (`'col' in self.messages.columns`).
The derived `date` column exists exactly when `datetime` does
(`WhatsAppAnalyzer.__init__`). -/
structure GenTable where
  rows : List Msg
  hasChatId : Bool
  hasMediaType : Bool
  hasIsGroup : Bool
  hasDatetime : Bool
  hasFromMe : Bool
deriving DecidableEq

/-- The calendar date of a message (`datetime.dt.date`), as a day count. -/
def msgDate (m : Msg) : Int := m.datetime / 86400000

/-- `groupby('date').size().idxmax()`: the first key, in the ascending
key order of `groupby`, attaining the maximal count.  The default of the
empty case is never used: the caller raises first. -/
def mostActiveDay (rows : List Msg) : Int :=
  let keys := List.insertionSort (fun a b : Int => a ≤ b) (rows.map msgDate).dedup
  let cnt := fun d => (rows.filter (fun m => msgDate m == d)).length
  match keys with
  | [] => 0
  | k :: t => t.foldl (fun best k2 => if cnt best < cnt k2 then k2 else best) k

/-- `WhatsAppAnalyzer.get_general_statistics` (analyzer.py lines 91-131).
An `Except.error` models an uncaught exception:
* line 97 (`self.messages['chat_id']`) and line 98
  (`self.messages['media_type']`) access their columns unconditionally, a
  `KeyError` when the column is absent;
* line 122 (`groupby('date').size().idxmax()`) raises `ValueError` on an
  empty table when the `date` column exists.
The guarded blocks (`is_group`, `datetime`, `from_me`) degrade instead of
failing.  (Value abstractions: `strftime` timestamps are reported as raw
milliseconds and `most_active_day` as a day number; the claims under
check concern which keys are produced and whether the call raises.) -/
def getGeneralStatistics (t : GenTable) : Except String (List (String × StatVal)) :=
  if t.hasChatId = false then .error "KeyError: chat_id"
  else if t.hasMediaType = false then .error "KeyError: media_type"
  else if t.hasDatetime && t.rows.isEmpty then
    .error "ValueError: attempt to get argmax of an empty sequence"
  else
    let totalChats : Int := (t.rows.map (fun m => m.chat_id)).dedup.length
    let totalMedia : Int := (t.rows.filter (fun m =>
      match m.media_type with
      | some v => 0 < v
      | none => false)).length
    let totalGroups : Int :=
      (((t.rows.filter (fun m => m.is_group == true)).map (fun m => m.chat_id)).dedup.length : Int)
    .ok (
      [("total_messages", .num t.rows.length),
       ("total_chats", .num totalChats),
       ("total_media", .num totalMedia)]
      ++ (if t.hasIsGroup then
            [("total_groups", .num totalGroups),
             ("total_personal_chats", .num (totalChats - totalGroups))]
          else
            [("total_groups", .num 0),
             ("total_personal_chats", .num totalChats)])
      ++ (if t.hasDatetime then
            (if (t.rows.map (fun m => m.datetime)).isEmpty then
              [("first_message_date", .str "Bilinmiyor"),
               ("last_message_date", .str "Bilinmiyor"),
               ("date_range_days", .num 0)]
            else
              [("first_message_date", .num (minIntD (t.rows.map (fun m => m.datetime)))),
               ("last_message_date", .num (maxIntD (t.rows.map (fun m => m.datetime)))),
               ("date_range_days",
                .num ((maxIntD (t.rows.map (fun m => m.datetime))
                        - minIntD (t.rows.map (fun m => m.datetime))) / 86400000))])
            ++ [("most_active_day", .num (mostActiveDay t.rows)),
                ("most_active_day_count",
                 .num ((t.rows.filter (fun m => msgDate m == mostActiveDay t.rows)).length))]
          else [])
      ++ (if t.hasFromMe then
            [("sent_messages", .num ((t.rows.filter (fun m => m.from_me == 1)).length)),
             ("received_messages", .num ((t.rows.filter (fun m => m.from_me == 0)).length))]
          else []))

/-- The keys of the statistics dictionary, empty on an exception. -/
def statKeys (t : GenTable) : List String :=
  match getGeneralStatistics t with
  | .ok l => l.map Prod.fst
  | .error _ => []

/-! ### Concrete fixtures used by the witness theorems -/

/-- A single wells-formed personal message. -/
def demoMsg : Msg := ⟨1, "a", 1, 1000, 1000, 3, 2, some 0, some "hi", false, none⟩

/-- A one-message table. -/
def demoRows : List Msg := [demoMsg]

/-- The `get_top_contacts` row that `demoRows` produces. -/
def demoStat : ContactStat := ⟨"a", 1, 1, 1000, 0, "a", 1/2⟩

/-- A messages table missing its `media_type` column. -/
def demoNoMediaTable : GenTable := ⟨demoRows, true, false, true, true, true⟩

/-- A messages table with every consulted column present. -/
def demoFullTable : GenTable := ⟨demoRows, true, true, true, true, true⟩

/-- One chat, per the spec's response-time example: inbound at T,
outbound at T+5min (a genuine reply), then inbound at T2 with the
outbound answer 2000 minutes later (discarded). -/
def demoRTRows : List Msg :=
  [⟨1, "c", 0, 0, 0, 0, 0, none, none, false, none⟩,
   ⟨2, "c", 1, 300000, 300000, 0, 0, none, none, false, none⟩,
   ⟨3, "c", 0, 400000, 400000, 0, 0, none, none, false, none⟩,
   ⟨4, "c", 1, 120400000, 120400000, 0, 0, none, none, false, none⟩]

/-- Three messages of one chat, out of order by timestamp. -/
def demoConvState : AState :=
  ⟨[⟨1, "c", 0, 30, 30, 0, 0, none, none, false, none⟩,
    ⟨2, "c", 1, 10, 10, 0, 0, none, none, false, none⟩,
    ⟨3, "c", 0, 20, 20, 0, 0, none, none, false, none⟩], false⟩

/-- A fresh analyzer state with one text message, before any keyword
search has run. -/
def demoSearchState : AState :=
  ⟨[⟨1, "c", 0, 10, 10, 0, 0, none, some "Hello", false, none⟩], false⟩

/-- Two messages: Monday(0) hour 1 and Tuesday(1) hour 2, so both the
(0,2) and (1,1) heatmap cells are zero-filled. -/
def demoHeatRows : List Msg :=
  [⟨1, "a", 0, 0, 0, 1, 0, none, none, false, none⟩,
   ⟨2, "a", 0, 0, 0, 2, 1, none, none, false, none⟩]

/-! ## Helper lemmas -/

theorem string_toList_append (s t : String) : (s ++ t).toList = s.toList ++ t.toList := by
  cases s
  cases t
  rfl

theorem string_mk_toList (s : String) : String.mk s.toList = s := by
  cases s
  rfl

theorem charsLead_at_cons_ne {a b : Char} (pat l : List Char) (h : a ≠ b) :
    charsLead (a :: pat) (b :: l) = false := by
  have : (a == b) = false := beq_eq_false_iff_ne.mpr h
  simp [charsLead, this]

theorem containsFrom_append_skip (pat a b : List Char) (x : Char) (p : List Char)
    (hpat : pat = x :: p) (ha : ∀ c ∈ a, c ≠ x) :
    containsFrom pat (a ++ b) = containsFrom pat b := by
  induction a with
  | nil => rfl
  | cons c t ih =>
    have hc : c ≠ x := ha c (List.mem_cons_self c t)
    have hlead : charsLead pat (c :: (t ++ b)) = false := by
      rw [hpat]
      exact charsLead_at_cons_ne p (t ++ b) (fun h => hc h.symm)
    rw [List.cons_append, containsFrom, hlead, Bool.false_or]
    exact ih (fun d hd => ha d (List.mem_cons_of_mem c hd))

theorem takeWhile_append_stop (q : Char → Bool) (a r : List Char) (x : Char)
    (ha : ∀ c ∈ a, q c = true) (hx : q x = false) :
    (a ++ x :: r).takeWhile q = a := by
  induction a with
  | nil => simp [List.takeWhile, hx]
  | cons c t ih =>
    have hc : q c = true := ha c (List.mem_cons_self c t)
    have ht := ih (fun d hd => ha d (List.mem_cons_of_mem c hd))
    simp [List.takeWhile_cons, hc, ht]

theorem lookupName_eq_none {contacts : List ContactRow} {cid : String}
    (h : contacts.find? (fun r => r.jid == cid) = none) :
    lookupName contacts cid = none := by
  unfold lookupName
  cases hc : contacts.isEmpty
  · rw [if_neg (by simp [hc]), h]
  · rw [if_pos rfl]

theorem foldl_min_mem (t : List ℚ) (x : ℚ) : t.foldl min x = x ∨ t.foldl min x ∈ t := by
  induction t generalizing x with
  | nil => exact Or.inl rfl
  | cons a l ih =>
    rw [List.foldl_cons]
    rcases ih (min x a) with h | h
    · rcases le_total x a with hxa | hax
      · exact Or.inl (h.trans (min_eq_left hxa))
      · refine Or.inr ?_
        rw [h, min_eq_right hax]
        exact List.mem_cons_self a l
    · exact Or.inr (List.mem_cons_of_mem a h)

theorem foldl_min_le (t : List ℚ) (x : ℚ) :
    t.foldl min x ≤ x ∧ ∀ d ∈ t, t.foldl min x ≤ d := by
  induction t generalizing x with
  | nil => exact ⟨le_refl x, by simp⟩
  | cons a l ih =>
    obtain ⟨h1, h2⟩ := ih (min x a)
    rw [List.foldl_cons]
    refine ⟨le_trans h1 (min_le_left _ _), ?_⟩
    intro d hd
    rcases List.mem_cons.mp hd with rfl | hd
    · exact le_trans h1 (min_le_right _ _)
    · exact h2 d hd

theorem foldl_max_mem (t : List ℚ) (x : ℚ) : t.foldl max x = x ∨ t.foldl max x ∈ t := by
  induction t generalizing x with
  | nil => exact Or.inl rfl
  | cons a l ih =>
    rw [List.foldl_cons]
    rcases ih (max x a) with h | h
    · rcases le_total a x with hax | hxa
      · exact Or.inl (h.trans (max_eq_left hax))
      · refine Or.inr ?_
        rw [h, max_eq_right hxa]
        exact List.mem_cons_self a l
    · exact Or.inr (List.mem_cons_of_mem a h)

theorem foldl_max_ge (t : List ℚ) (x : ℚ) :
    x ≤ t.foldl max x ∧ ∀ d ∈ t, d ≤ t.foldl max x := by
  induction t generalizing x with
  | nil => exact ⟨le_refl x, by simp⟩
  | cons a l ih =>
    obtain ⟨h1, h2⟩ := ih (max x a)
    rw [List.foldl_cons]
    refine ⟨le_trans (le_max_left _ _) h1, ?_⟩
    intro d hd
    rcases List.mem_cons.mp hd with rfl | hd
    · exact le_trans (le_max_right _ _) h1
    · exact h2 d hd

theorem orderedInsert_map_ts (f : Msg → Msg) (hts : ∀ m, (f m).timestamp = m.timestamp)
    (a : Msg) : ∀ l : List Msg,
    List.orderedInsert tsLE (f a) (l.map f) = (List.orderedInsert tsLE a l).map f
  | [] => rfl
  | b :: t => by
    have hiff : tsLE (f a) (f b) ↔ tsLE a b := by unfold tsLE; rw [hts, hts]
    by_cases h : tsLE a b
    · rw [List.map_cons, List.orderedInsert, List.orderedInsert,
        if_pos (hiff.mpr h), if_pos h, List.map_cons, List.map_cons]
    · rw [List.map_cons, List.orderedInsert, List.orderedInsert,
        if_neg (fun hh => h (hiff.mp hh)), if_neg h, List.map_cons,
        orderedInsert_map_ts f hts a t]

theorem insertionSort_map_ts (f : Msg → Msg) (hts : ∀ m, (f m).timestamp = m.timestamp) :
    ∀ l : List Msg,
    List.insertionSort tsLE (l.map f) = (List.insertionSort tsLE l).map f
  | [] => rfl
  | b :: t => by
    rw [List.map_cons, List.insertionSort, List.insertionSort,
      insertionSort_map_ts f hts t, orderedInsert_map_ts f hts b]

theorem roundHalfEven_bounds {x : ℚ} (h0 : 0 ≤ x) (h1 : x < 100) :
    0 ≤ roundHalfEven x ∧ roundHalfEven x ≤ 100 := by
  have hf0 : (0 : ℤ) ≤ ⌊x⌋ := Int.floor_nonneg.mpr h0
  have hf1 : ⌊x⌋ < 100 := Int.floor_lt.mpr (by exact_mod_cast h1)
  unfold roundHalfEven
  simp only []
  split_ifs <;> constructor <;> omega

theorem round2_unit {q : ℚ} (h0 : 0 ≤ q) (h1 : q < 1) :
    0 ≤ round2 q ∧ round2 q ≤ 1 := by
  obtain ⟨a, b⟩ := roundHalfEven_bounds (x := 100 * q) (by positivity) (by linarith)
  constructor
  · apply div_nonneg _ (by norm_num)
    exact_mod_cast a
  · rw [round2, div_le_one (by norm_num)]
    exact_mod_cast b

/-! ## C1: media-type classification across the two mapping tables -/

/-- C1 counterexample: code 6 is unknown to both tables.  The analyzer's
distribution function classifies it as Other, but the ingestion-side
mapping sends it to 0, which is classified as Text — so the two tables
do not classify unknown positive codes the same way, and a message that
carried raw code 6 lands in Text after ingestion, not Other. -/
theorem mediaType_unknown_counterexample :
    mapMessageTypeToMedia (some 6) = 0
    ∧ classifyMediaType (some (mapMessageTypeToMedia (some 6))) = Category.Text
    ∧ classifyMediaType (some 6) = Category.Other
    ∧ Category.Text ≠ Category.Other := by decide

/-- C1 amended: null or zero codes are Text under both tables, every code
the ingestion map knows lands in a fixed non-Other category consistent
with the analyzer's direct classification, and the analyzer classifies
unknown positive codes as Other; but the ingestion-side mapping sends
every unknown raw code to 0, so after ingestion such a message is
classified Text, not Other. -/
theorem mediaType_mapping_amended (c : Int) (hc : c ∉ ingestionKnownCodes) :
    mapMessageTypeToMedia (some c) = 0
    ∧ classifyMediaType (some (mapMessageTypeToMedia (some c))) = Category.Text
    ∧ (0 < c → classifyMediaType (some c) = Category.Other)
    ∧ (∀ mt : Option Int, (mt = none ∨ mt = some 0) →
        classifyMediaType mt = Category.Text ∧ mapMessageTypeToMedia mt = 0)
    ∧ (∀ k ∈ ingestionKnownCodes, k ≠ 0 →
        classifyMediaType (some (mapMessageTypeToMedia (some k))) ≠ Category.Text
        ∧ classifyMediaType (some (mapMessageTypeToMedia (some k))) ≠ Category.Other)
    ∧ (∀ k ∈ analyzerKnownCodes, mapMessageTypeToMedia (some k) = k) := by
  simp only [ingestionKnownCodes, List.mem_cons, List.not_mem_nil, or_false] at hc
  push_neg at hc
  obtain ⟨e0, e1, e2, e3, e4, e5, e7, e8, e9, e13, e14, e15, e20, e26, e42, e43⟩ := hc
  refine ⟨?_, ?_, ?_, ?_, ?_, ?_⟩
  · simp [mapMessageTypeToMedia, e0, e1, e2, e3, e4, e5, e7, e8, e9, e13, e14, e15,
      e20, e26, e42, e43]
  · simp [mapMessageTypeToMedia, classifyMediaType, e0, e1, e2, e3, e4, e5, e7, e8,
      e9, e13, e14, e15, e20, e26, e42, e43]
  · intro _
    simp [classifyMediaType, e0, e1, e2, e3, e4, e5, e9, e13, e20]
  · rintro mt (rfl | rfl) <;> constructor <;> rfl
  · decide
  · decide

/-- C1 witness: the amended theorem instantiated at the unknown code 6. -/
theorem mediaType_mapping_amended_witness :
    (6 : Int) ∉ ingestionKnownCodes
    ∧ (mapMessageTypeToMedia (some 6) = 0
       ∧ classifyMediaType (some (mapMessageTypeToMedia (some 6))) = Category.Text
       ∧ (0 < (6 : Int) → classifyMediaType (some 6) = Category.Other)
       ∧ (∀ mt : Option Int, (mt = none ∨ mt = some 0) →
           classifyMediaType mt = Category.Text ∧ mapMessageTypeToMedia mt = 0)
       ∧ (∀ k ∈ ingestionKnownCodes, k ≠ 0 →
           classifyMediaType (some (mapMessageTypeToMedia (some k))) ≠ Category.Text
           ∧ classifyMediaType (some (mapMessageTypeToMedia (some k))) ≠ Category.Other)
       ∧ (∀ k ∈ analyzerKnownCodes, mapMessageTypeToMedia (some k) = k)) :=
  ⟨by decide, mediaType_mapping_amended 6 (by decide)⟩

/-! ## C2: graceful degradation of `get_general_statistics` -/

/-- C2 counterexample: a table whose `media_type` column is absent makes
`get_general_statistics` raise a `KeyError` at line 98 instead of
omitting the media statistic — the function does not degrade gracefully
for every prerequisite column. -/
theorem general_statistics_counterexample :
    getGeneralStatistics demoNoMediaTable = .error "KeyError: media_type" := by rfl

/-- C2 amended: `get_general_statistics` omits the statistics that depend
on the guarded columns — `datetime` and `from_me` produce their entries
exactly when present, and a missing `is_group` yields defaulted (not
omitted) group counts — and returns normally whenever the `chat_id` and
`media_type` columns are present and the `date` column, when it exists,
has at least one row to aggregate; but a table lacking `chat_id` or
`media_type` raises a `KeyError`. -/
theorem general_statistics_amended (t : GenTable)
    (h1 : t.hasChatId = true) (h2 : t.hasMediaType = true)
    (h3 : t.hasDatetime = true → t.rows ≠ []) :
    (getGeneralStatistics t).isOk = true
    ∧ "total_messages" ∈ statKeys t
    ∧ "total_groups" ∈ statKeys t
    ∧ ("sent_messages" ∈ statKeys t ↔ t.hasFromMe = true)
    ∧ ("received_messages" ∈ statKeys t ↔ t.hasFromMe = true)
    ∧ ("first_message_date" ∈ statKeys t ↔ t.hasDatetime = true)
    ∧ ("most_active_day" ∈ statKeys t ↔ t.hasDatetime = true) := by
  obtain ⟨rows, c1, c2, c3, c4, c5⟩ := t
  simp only at h1 h2 h3
  subst h1
  subst h2
  cases c4 with
  | false =>
    cases c3 <;> cases c5 <;>
      simp [getGeneralStatistics, statKeys, Except.isOk, Except.toBool]
  | true =>
    have hne : rows ≠ [] := h3 rfl
    obtain _ | ⟨r, rest⟩ := rows
    · exact absurd rfl hne
    · cases c3 <;> cases c5 <;>
        simp [getGeneralStatistics, statKeys, Except.isOk, Except.toBool]

/-- C2 witness: the amended theorem instantiated at a fully-populated
one-message table. -/
theorem general_statistics_amended_witness :
    demoFullTable.hasChatId = true
    ∧ demoFullTable.hasMediaType = true
    ∧ (demoFullTable.hasDatetime = true → demoFullTable.rows ≠ [])
    ∧ ((getGeneralStatistics demoFullTable).isOk = true
       ∧ "total_messages" ∈ statKeys demoFullTable
       ∧ "total_groups" ∈ statKeys demoFullTable
       ∧ ("sent_messages" ∈ statKeys demoFullTable ↔ demoFullTable.hasFromMe = true)
       ∧ ("received_messages" ∈ statKeys demoFullTable ↔ demoFullTable.hasFromMe = true)
       ∧ ("first_message_date" ∈ statKeys demoFullTable ↔ demoFullTable.hasDatetime = true)
       ∧ ("most_active_day" ∈ statKeys demoFullTable ↔ demoFullTable.hasDatetime = true)) :=
  ⟨rfl, rfl, fun _ => by decide,
   general_statistics_amended demoFullTable rfl rfl (fun _ => by decide)⟩

/-! ## C3: `given_name` fallback in `get_contact_name` -/

/-- C3 counterexample: a contact whose `display_name` cell holds the
literal string "None" and whose `given_name` is "Ada".  Because line 65
is an `elif` guarded by `pd.notna(display_name)`, the `given_name` branch
is never reached when `display_name` is non-null but invalid, and the
resolver falls through to phone formatting instead of returning "Ada". -/
theorem contact_given_name_counterexample :
    getContactName [] [⟨"905551234567@s.whatsapp.net", some "None", some "Ada"⟩]
        (some "905551234567@s.whatsapp.net") = "+905551234567"
    ∧ getContactName [] [⟨"905551234567@s.whatsapp.net", some "None", some "Ada"⟩]
        (some "905551234567@s.whatsapp.net") ≠ "Ada" := by decide

/-- C3 amended: `get_contact_name` returns the `given_name` when the
matching contact row's `display_name` cell is null (absent), the
`given_name` is valid (non-empty, not "None", not all whitespace), and
the identifier is not an alias (`@lid`) identifier; when `display_name`
holds a non-null but empty or "None" string the function does not
consult `given_name` at all. -/
theorem contact_given_name_amended (lidMap : List (String × String))
    (contacts : List ContactRow) (cid j gn : String)
    (hlid : strContains cid "@lid" = false)
    (hfind : contacts.find? (fun r => r.jid == cid) = some ⟨j, none, some gn⟩)
    (hgn : validName gn = true) :
    getContactName lidMap contacts (some cid) = gn := by
  have hne : contacts.isEmpty = false := by
    cases contacts with
    | nil => simp at hfind
    | cons a l => rfl
  have hl : lookupName contacts cid = some gn := by
    unfold lookupName
    rw [if_neg (by simp [hne]), hfind]
    simp [hgn]
  simp [getContactName, hlid, hl]

/-- C3 witness: the amended theorem instantiated at a contact with a
null `display_name` and `given_name` "Ada". -/
theorem contact_given_name_amended_witness :
    strContains "x@s.whatsapp.net" "@lid" = false
    ∧ ([(⟨"x@s.whatsapp.net", none, some "Ada"⟩ : ContactRow)].find?
        (fun r => r.jid == "x@s.whatsapp.net")
        = some ⟨"x@s.whatsapp.net", none, some "Ada"⟩)
    ∧ validName "Ada" = true
    ∧ getContactName [] [⟨"x@s.whatsapp.net", none, some "Ada"⟩]
        (some "x@s.whatsapp.net") = "Ada" :=
  ⟨by decide, by decide, by decide,
   contact_given_name_amended [] [⟨"x@s.whatsapp.net", none, some "Ada"⟩]
     "x@s.whatsapp.net" "x@s.whatsapp.net" "Ada" (by decide) (by decide) (by decide)⟩

/-! ## C4: commutation of keyword search and conversation extraction -/

/-- C4 counterexample: on a one-message table, running
`get_messages_by_keyword` first changes the result of
`get_conversation_with_contact`: the search assigns the derived
`message_text_str` column to the shared `self.messages` table, and the
extraction afterwards returns rows carrying that extra column. -/
theorem keyword_search_not_commute :
    getConversationWithContact (getMessagesByKeyword demoSearchState "hello" 50).1 "c" 100
      ≠ getConversationWithContact demoSearchState "c" 100 := by decide

/-- C4 amended: the keyword search and conversation extraction commute
only up to the derived column — projecting the extraction's rows onto
the original columns (dropping `message_text_str`) gives the same result
whether or not a keyword search ran first; the full results differ, as
the search mutates the shared messages table. -/
theorem keyword_search_commute_amended (st : AState) (kw : String) (klim : Nat)
    (cid : String) (limit : Nat) :
    ((getConversationWithContact (getMessagesByKeyword st kw klim).1 cid limit).1).map
        eraseTextStr
      = ((getConversationWithContact st cid limit).1).map eraseTextStr := by
  show ((getConversationWithContact ⟨st.rows.map addTextStrCol, true⟩ cid limit).1).map
        eraseTextStr
      = ((getConversationWithContact st cid limit).1).map eraseTextStr
  have hp : ((fun m => m.chat_id == cid) ∘ addTextStrCol) = fun m => m.chat_id == cid := rfl
  have hcomp : (eraseTextStr ∘ addTextStrCol) = eraseTextStr := rfl
  have hts : ∀ m, (addTextStrCol m).timestamp = m.timestamp := fun _ => rfl
  have hiem : ∀ l : List Msg, (l.map addTextStrCol).isEmpty = l.isEmpty := by
    intro l
    cases l <;> rfl
  unfold getConversationWithContact
  rw [List.filter_map, hp]
  simp only []
  set conv := st.rows.filter (fun m => m.chat_id == cid) with hconv
  rw [hiem conv]
  cases he : conv.isEmpty with
  | true =>
    rfl
  | false =>
    rw [if_neg (by simp : ¬(false = true)), if_neg (by simp : ¬(false = true)),
      insertionSort_map_ts addTextStrCol hts conv, List.length_map]
    by_cases hl : limit < (List.insertionSort tsLE conv).length
    · rw [if_pos hl, if_pos hl]
      simp only [← List.map_drop, List.map_map, hcomp]
    · rw [if_neg hl, if_neg hl]
      simp only [List.map_map, hcomp]

/-! ## C5: response-time analysis -/

theorem minQ_spec (l : List ℚ) (h : l ≠ []) : minQ l ∈ l ∧ ∀ d ∈ l, minQ l ≤ d := by
  cases l with
  | nil => exact absurd rfl h
  | cons x t =>
    constructor
    · rcases foldl_min_mem t x with h1 | h1
      · rw [minQ, h1]
        exact List.mem_cons_self x t
      · exact List.mem_cons_of_mem x (by rw [minQ]; exact h1)
    · intro d hd
      rcases List.mem_cons.mp hd with rfl | hd
      · exact (foldl_min_le t d).1
      · exact (foldl_min_le t x).2 d hd

theorem maxQ_spec (l : List ℚ) (h : l ≠ []) : maxQ l ∈ l ∧ ∀ d ∈ l, d ≤ maxQ l := by
  cases l with
  | nil => exact absurd rfl h
  | cons x t =>
    constructor
    · rcases foldl_max_mem t x with h1 | h1
      · rw [maxQ, h1]
        exact List.mem_cons_self x t
      · exact List.mem_cons_of_mem x (by rw [maxQ]; exact h1)
    · intro d hd
      rcases List.mem_cons.mp hd with rfl | hd
      · exact (foldl_max_ge t d).1
      · exact (foldl_max_ge t x).2 d hd

theorem responseTimeAnalysis_eq (rows : List Msg) :
    responseTimeAnalysis rows =
      if (responseDeltas rows).isEmpty = true then none
      else some ⟨meanQ (responseDeltas rows), medianQ (responseDeltas rows),
        minQ (responseDeltas rows), maxQ (responseDeltas rows)⟩ := rfl

/-- C5: the retained response-time sample consists only of deltas
strictly between 0 and 1440 minutes, taken from adjacent
inbound-then-outbound pairs of each chat ordered by time; the analysis
reports the mean, median, min and max of that sample, the reported min
and max belong to the sample and bound it, and an empty sample yields
the empty result rather than an error. -/
theorem response_time_spec (rows : List Msg) :
    (∀ d ∈ responseDeltas rows, 0 < d ∧ d < 1440)
    ∧ (responseTimeAnalysis rows = none ↔ responseDeltas rows = [])
    ∧ ∀ s, responseTimeAnalysis rows = some s →
        s.avg = meanQ (responseDeltas rows)
        ∧ s.median = medianQ (responseDeltas rows)
        ∧ s.minimum ∈ responseDeltas rows
        ∧ s.maximum ∈ responseDeltas rows
        ∧ ∀ d ∈ responseDeltas rows, s.minimum ≤ d ∧ d ≤ s.maximum := by
  refine ⟨?_, ?_, ?_⟩
  · intro d hd
    simp only [responseDeltas, List.mem_flatMap, List.mem_filterMap] at hd
    obtain ⟨cid, -, pc, -, hpc⟩ := hd
    by_cases h1 : (pc.1.from_me == 0 && pc.2.from_me == 1) = true
    · rw [if_pos h1] at hpc
      by_cases h2 : 0 < ((pc.2.datetime - pc.1.datetime : ℤ) : ℚ) / 60000
          ∧ ((pc.2.datetime - pc.1.datetime : ℤ) : ℚ) / 60000 < 1440
      · rw [if_pos h2] at hpc
        cases hpc
        exact h2
      · rw [if_neg h2] at hpc
        cases hpc
    · rw [if_neg h1] at hpc
      cases hpc
  · rw [responseTimeAnalysis_eq]
    cases he : (responseDeltas rows).isEmpty with
    | true => simp [List.isEmpty_iff.mp he]
    | false =>
      have hnil : responseDeltas rows ≠ [] := by
        intro h
        rw [h] at he
        simp at he
      simp [hnil]
  · intro s hs
    rw [responseTimeAnalysis_eq] at hs
    have hne : (responseDeltas rows).isEmpty = false := by
      cases he : (responseDeltas rows).isEmpty with
      | false => rfl
      | true =>
        rw [he] at hs
        simp at hs
    rw [hne] at hs
    simp only [Bool.false_eq_true, if_false, Option.some.injEq] at hs
    subst hs
    have hlist : responseDeltas rows ≠ [] := by
      intro h
      rw [h] at hne
      simp at hne
    refine ⟨rfl, rfl, (minQ_spec _ hlist).1, (maxQ_spec _ hlist).1, ?_⟩
    intro d hd
    exact ⟨(minQ_spec _ hlist).2 d hd, (maxQ_spec _ hlist).2 d hd⟩

/-- C5 witness: the spec's own example — an inbound message answered
5 minutes later contributes 5.0; an inbound message answered 2000
minutes later contributes nothing; the analysis reports mean, median,
min and max 5.0. -/
theorem response_time_witness :
    responseDeltas demoRTRows = [5]
    ∧ responseTimeAnalysis demoRTRows = some ⟨5, 5, 5, 5⟩
    ∧ (0 < (5 : ℚ) ∧ (5 : ℚ) < 1440) :=
  ⟨by decide, by decide, (response_time_spec demoRTRows).1 5 (by decide)⟩

/-! ## C6: balance score -/

/-- C6: every row of the per-contact ranking has
`balance_score = round2(sent_by_me / (total_messages + 1))`, and that
score lies in [0, 1]. -/
theorem balance_score_spec (lidMap : List (String × String)) (contacts : List ContactRow)
    (rows : List Msg) (limit : Nat) :
    ∀ st ∈ getTopContacts lidMap contacts rows limit,
      st.balance_score = round2 ((st.sent_by_me : ℚ) / ((st.total_messages : ℚ) + 1))
      ∧ 0 ≤ st.balance_score ∧ st.balance_score ≤ 1 := by
  intro st hst
  unfold getTopContacts at hst
  simp only [] at hst
  have hst2 := List.mem_of_mem_take hst
  rw [(List.perm_insertionSort byTotalDesc _).mem_iff] at hst2
  rw [List.mem_map] at hst2
  obtain ⟨cid, -, rfl⟩ := hst2
  set personal := rows.filter (fun m => m.is_group == false) with hper
  set grp := personal.filter (fun m => m.chat_id == cid) with hgrp
  have hsent : (grp.filter (fun m => m.from_me == 1)).length ≤ grp.length :=
    List.length_filter_le _ _
  have h0 : (0 : ℚ) ≤ ((grp.filter (fun m => m.from_me == 1)).length : ℚ)
      / ((grp.length : ℚ) + 1) := by
    apply div_nonneg (Nat.cast_nonneg _)
    positivity
  have h1 : ((grp.filter (fun m => m.from_me == 1)).length : ℚ)
      / ((grp.length : ℚ) + 1) < 1 := by
    rw [div_lt_one (by positivity)]
    have : ((grp.filter (fun m => m.from_me == 1)).length : ℚ) ≤ (grp.length : ℚ) := by
      exact_mod_cast hsent
    linarith
  exact ⟨rfl, (round2_unit h0 h1).1, (round2_unit h0 h1).2⟩

/-- C6 witness: the ranking of the one-message demo table, whose single
row has one message, one sent by me, and balance score 1/2. -/
theorem balance_score_witness :
    demoStat ∈ getTopContacts [] [] demoRows 20
    ∧ (demoStat.balance_score
        = round2 ((demoStat.sent_by_me : ℚ) / ((demoStat.total_messages : ℚ) + 1))
       ∧ 0 ≤ demoStat.balance_score ∧ demoStat.balance_score ≤ 1) :=
  ⟨by decide, balance_score_spec [] [] demoRows 20 demoStat (by decide)⟩

/-! ## C7: shape and order of the per-contact ranking -/

/-- C7: the per-contact ranking has exactly
min(limit, number of distinct non-group chat ids) rows and is sorted in
descending order of total message count. -/
theorem top_contacts_shape (lidMap : List (String × String)) (contacts : List ContactRow)
    (rows : List Msg) (limit : Nat) :
    (getTopContacts lidMap contacts rows limit).length
      = min limit
          ((rows.filter (fun m => m.is_group == false)).map (fun m => m.chat_id)).dedup.length
    ∧ List.Pairwise byTotalDesc (getTopContacts lidMap contacts rows limit) := by
  constructor
  · unfold getTopContacts
    simp only [List.length_take]
    congr 1
    rw [(List.perm_insertionSort byTotalDesc _).length_eq, List.length_map,
      groupKeysStr, (List.perm_insertionSort _ _).length_eq]
  · exact List.Pairwise.sublist (List.take_sublist _ _)
      (List.sorted_insertionSort byTotalDesc _)

/-! ## C8: conversation extraction keeps the most recent tail -/

/-- C8: when a chat has more messages than the limit, the extraction
returns exactly `limit` rows, ascending by time, that together with the
dropped rows permute the chat's messages, and every dropped row is no
newer than every returned row — the returned rows are the most recent
`limit` messages, the tail of the chronologically sorted conversation. -/
theorem conversation_tail_spec (st : AState) (cid : String) (limit : Nat)
    (h : limit < (st.rows.filter (fun m => m.chat_id == cid)).length) :
    ∃ dropped : List Msg,
      (getConversationWithContact st cid limit).1.length = limit
      ∧ List.Pairwise tsLE (getConversationWithContact st cid limit).1
      ∧ (dropped ++ (getConversationWithContact st cid limit).1).Perm
          (st.rows.filter (fun m => m.chat_id == cid))
      ∧ ∀ x ∈ dropped, ∀ y ∈ (getConversationWithContact st cid limit).1, tsLE x y := by
  set conv := st.rows.filter (fun m => m.chat_id == cid) with hconv
  have hne : conv.isEmpty = false := by
    cases hc : conv.isEmpty with
    | false => rfl
    | true =>
      rw [List.isEmpty_iff.mp hc] at h
      cases h
  set srt := List.insertionSort tsLE conv with hsrt
  have hlen : srt.length = conv.length := (List.perm_insertionSort tsLE conv).length_eq
  have hlim : limit < srt.length := hlen ▸ h
  have hres : (getConversationWithContact st cid limit).1
      = srt.drop (srt.length - limit) := by
    unfold getConversationWithContact
    simp only []
    rw [← hconv, hne]
    simp only [Bool.false_eq_true, if_false, ← hsrt, if_pos hlim]
  have hsorted : List.Pairwise tsLE srt := List.sorted_insertionSort tsLE conv
  have hsplit := List.take_append_drop (srt.length - limit) srt
  refine ⟨srt.take (srt.length - limit), ?_, ?_, ?_, ?_⟩
  · rw [hres, List.length_drop]
    omega
  · rw [hres]
    exact List.Pairwise.sublist (List.drop_sublist _ _) hsorted
  · rw [hres, hsplit]
    exact List.perm_insertionSort tsLE conv
  · rw [hres]
    have := (List.pairwise_append.mp (hsplit ▸ hsorted)).2.2
    exact this

/-- C8 witness: three messages of one chat with limit 2: the two newest
are returned in ascending order and the oldest is dropped. -/
theorem conversation_tail_witness :
    2 < (demoConvState.rows.filter (fun m => m.chat_id == "c")).length
    ∧ ∃ dropped : List Msg,
        (getConversationWithContact demoConvState "c" 2).1.length = 2
        ∧ List.Pairwise tsLE (getConversationWithContact demoConvState "c" 2).1
        ∧ (dropped ++ (getConversationWithContact demoConvState "c" 2).1).Perm
            (demoConvState.rows.filter (fun m => m.chat_id == "c"))
        ∧ ∀ x ∈ dropped, ∀ y ∈ (getConversationWithContact demoConvState "c" 2).1, tsLE x y :=
  ⟨by decide, conversation_tail_spec demoConvState "c" 2 (by decide)⟩

/-! ## C9: phone-number formatting for unresolved direct-chat ids -/

theorem isDigit_ne_at {c : Char} (h : c.isDigit = true) : c ≠ '@' := by
  rintro rfl
  exact absurd h (by decide)

theorem isDigit_ne_plus {c : Char} (h : c.isDigit = true) : c ≠ '+' := by
  rintro rfl
  exact absurd h (by decide)

theorem getContactName_phone_branch (lidMap : List (String × String))
    (contacts : List ContactRow) (cid : String)
    (hlid : strContains cid "@lid" = false)
    (hl : lookupName contacts cid = none)
    (hsw : strContains cid "@s.whatsapp.net" = true) :
    getContactName lidMap contacts (some cid) = formatPhone (localPart cid '@') := by
  simp [getContactName, hlid, hl, hsw]

/-- C9: a chat id of the form digits@s.whatsapp.net with no matching
contact resolves to '+' followed by the digits, and a local part that
already starts with '+' is returned without a second '+'. -/
theorem phone_number_fallback (lidMap : List (String × String)) (contacts : List ContactRow)
    (digits : String)
    (hne : digits.toList ≠ [])
    (hdig : ∀ c ∈ digits.toList, c.isDigit = true)
    (h1 : contacts.find? (fun r => r.jid == digits ++ "@s.whatsapp.net") = none)
    (h2 : contacts.find? (fun r => r.jid == "+" ++ digits ++ "@s.whatsapp.net") = none) :
    getContactName lidMap contacts (some (digits ++ "@s.whatsapp.net")) = "+" ++ digits
    ∧ getContactName lidMap contacts (some ("+" ++ digits ++ "@s.whatsapp.net"))
        = "+" ++ digits := by
  have sfx : "@s.whatsapp.net".toList = '@' :: "s.whatsapp.net".toList := by decide
  have hd_at : ∀ c ∈ digits.toList, c ≠ '@' := fun c hc => isDigit_ne_at (hdig c hc)
  constructor
  · have htl : (digits ++ "@s.whatsapp.net").toList
        = digits.toList ++ "@s.whatsapp.net".toList := string_toList_append _ _
    have hlid : strContains (digits ++ "@s.whatsapp.net") "@lid" = false := by
      rw [strContains, htl,
        containsFrom_append_skip "@lid".toList digits.toList _ '@' "lid".toList
          (by decide) hd_at]
      decide
    have hsw : strContains (digits ++ "@s.whatsapp.net") "@s.whatsapp.net" = true := by
      rw [strContains, htl,
        containsFrom_append_skip "@s.whatsapp.net".toList digits.toList _ '@'
          "s.whatsapp.net".toList (by decide) hd_at]
      decide
    have hloc : localPart (digits ++ "@s.whatsapp.net") '@' = digits := by
      rw [localPart, htl, sfx,
        takeWhile_append_stop _ digits.toList "s.whatsapp.net".toList '@'
          (fun c hc => decide_eq_true (hd_at c hc)) (by decide),
        string_mk_toList]
    rw [getContactName_phone_branch lidMap contacts _ hlid (lookupName_eq_none h1) hsw, hloc]
    obtain ⟨d, t, hdt⟩ : ∃ d t, digits.toList = d :: t := by
      cases hh : digits.toList with
      | nil => exact absurd hh hne
      | cons d t => exact ⟨d, t, rfl⟩
    have hdplus : ('+' == d) = false :=
      beq_eq_false_iff_ne.mpr
        (fun he => isDigit_ne_plus (hdig d (by rw [hdt]; exact List.mem_cons_self d t)) he.symm)
    rw [formatPhone, hdt]
    simp [charsLead, hdplus]
  · have hplus : ('+' :: digits.toList) = ("+" ++ digits).toList := by
      rw [string_toList_append]
      rfl
    have htl2 : ("+" ++ digits ++ "@s.whatsapp.net").toList
        = ('+' :: digits.toList) ++ "@s.whatsapp.net".toList := by
      rw [string_toList_append, string_toList_append]
      rfl
    have hd2_at : ∀ c ∈ ('+' :: digits.toList), c ≠ '@' := by
      intro c hc
      rcases List.mem_cons.mp hc with rfl | hc
      · decide
      · exact hd_at c hc
    have hlid2 : strContains ("+" ++ digits ++ "@s.whatsapp.net") "@lid" = false := by
      rw [strContains, htl2,
        containsFrom_append_skip "@lid".toList ('+' :: digits.toList) _ '@' "lid".toList
          (by decide) hd2_at]
      decide
    have hsw2 : strContains ("+" ++ digits ++ "@s.whatsapp.net") "@s.whatsapp.net" = true := by
      rw [strContains, htl2,
        containsFrom_append_skip "@s.whatsapp.net".toList ('+' :: digits.toList) _ '@'
          "s.whatsapp.net".toList (by decide) hd2_at]
      decide
    have hloc2 : localPart ("+" ++ digits ++ "@s.whatsapp.net") '@' = "+" ++ digits := by
      rw [localPart, htl2, sfx,
        takeWhile_append_stop _ ('+' :: digits.toList) "s.whatsapp.net".toList '@'
          (fun c hc => decide_eq_true (hd2_at c hc)) (by decide),
        hplus, string_mk_toList]
    rw [getContactName_phone_branch lidMap contacts _ hlid2 (lookupName_eq_none h2) hsw2,
      hloc2, formatPhone, ← hplus]
    simp [charsLead]

/-- C9 witness: the spec's own example, "905551234567@s.whatsapp.net"
with no contacts, resolves to "+905551234567"; with the '+' already in
the local part no second '+' is added. -/
theorem phone_number_fallback_witness :
    ("905551234567" : String).toList ≠ []
    ∧ (∀ c ∈ ("905551234567" : String).toList, c.isDigit = true)
    ∧ (getContactName [] [] (some ("905551234567" ++ "@s.whatsapp.net")) = "+" ++ "905551234567"
       ∧ getContactName [] [] (some ("+" ++ "905551234567" ++ "@s.whatsapp.net"))
           = "+" ++ "905551234567") :=
  ⟨by decide, by decide,
   phone_number_fallback [] [] "905551234567" (by decide) (by decide) (by decide) (by decide)⟩

/-! ## C10: hour and day-of-week histograms are not zero-filled -/

/-- C10: the hour histogram has exactly one row per hour value occurring
in the data — strictly ascending, every count positive, an hour present
iff some message has it; the day-of-week histogram likewise has positive
counts and one row per occurring day; by contrast every heatmap row
carries one cell per observed hour, zero-count cells included. -/
theorem histograms_not_zero_filled (rows : List Msg) :
    ((getMessagesByHour rows).map Prod.fst).Pairwise (· < ·)
    ∧ (∀ p ∈ getMessagesByHour rows, 0 < p.2)
    ∧ (∀ h : Nat, (∃ p ∈ getMessagesByHour rows, p.1 = h) ↔ ∃ m ∈ rows, m.hour = h)
    ∧ (∀ p ∈ getMessagesByDayOfWeek rows, 0 < p.2)
    ∧ (getMessagesByDayOfWeek rows).length
        = (rows.map (fun m => m.day_of_week)).dedup.length
    ∧ ∀ row ∈ getActivityHeatmapData rows,
        row.2.length = (rows.map (fun m => m.hour)).dedup.length := by
  have hkeys : (getMessagesByHour rows).map Prod.fst
      = groupKeysNat (rows.map (fun m => m.hour)) := by
    unfold getMessagesByHour
    rw [List.map_map]
    exact List.map_id'' (fun _ => rfl) _
  have hperm : List.Perm (groupKeysNat (rows.map (fun m => m.hour)))
      ((rows.map (fun m => m.hour)).dedup) :=
    List.perm_insertionSort _ _
  have hsorted : List.Pairwise (fun a b : Nat => a ≤ b)
      (groupKeysNat (rows.map (fun m => m.hour))) :=
    List.sorted_insertionSort _ _
  have hnodup : (groupKeysNat (rows.map (fun m => m.hour))).Nodup :=
    hperm.nodup_iff.mpr (List.nodup_dedup _)
  have hmemkey : ∀ h : Nat, h ∈ groupKeysNat (rows.map (fun m => m.hour))
      ↔ ∃ m ∈ rows, m.hour = h := by
    intro h
    rw [hperm.mem_iff, List.mem_dedup, List.mem_map]
  refine ⟨?_, ?_, ?_, ?_, ?_, ?_⟩
  · rw [hkeys]
    exact List.Sorted.lt_of_le hsorted hnodup
  · intro p hp
    unfold getMessagesByHour at hp
    rw [List.mem_map] at hp
    obtain ⟨h, hh, rfl⟩ := hp
    obtain ⟨m, hm, hmh⟩ := (hmemkey h).mp hh
    exact List.length_pos_of_mem (List.mem_filter.mpr ⟨hm, by simp [hmh]⟩)
  · intro h
    constructor
    · rintro ⟨p, hp, rfl⟩
      unfold getMessagesByHour at hp
      rw [List.mem_map] at hp
      obtain ⟨k, hk, rfl⟩ := hp
      exact (hmemkey k).mp hk
    · intro hm
      refine ⟨(h, (rows.filter (fun m => m.hour == h)).length), ?_, rfl⟩
      unfold getMessagesByHour
      rw [List.mem_map]
      exact ⟨h, (hmemkey h).mpr hm, rfl⟩
  · intro p hp
    unfold getMessagesByDayOfWeek at hp
    rw [List.mem_map] at hp
    obtain ⟨d, hd, rfl⟩ := hp
    have : d ∈ (rows.map (fun m => m.day_of_week)).dedup :=
      (List.perm_insertionSort _ _).mem_iff.mp hd
    rw [List.mem_dedup, List.mem_map] at this
    obtain ⟨m, hm, hmd⟩ := this
    exact List.length_pos_of_mem (List.mem_filter.mpr ⟨hm, by simp [hmd]⟩)
  · unfold getMessagesByDayOfWeek
    rw [List.length_map, groupKeysNat, (List.perm_insertionSort _ _).length_eq]
  · intro row hrow
    unfold getActivityHeatmapData at hrow
    simp only [List.mem_map] at hrow
    obtain ⟨d, -, rfl⟩ := hrow
    simp only [List.length_map]
    rw [groupKeysNat, (List.perm_insertionSort _ _).length_eq]

/-- C10 witness: for two messages at (Monday, hour 1) and (Tuesday,
hour 2), the hour histogram holds exactly the two occurring hours with
count 1 — no zero-filled hour rows — while the heatmap zero-fills the
(Monday, 2) and (Tuesday, 1) cells; the first histogram row's count is
positive by the claim theorem. -/
theorem histograms_witness :
    getMessagesByHour demoHeatRows = [(1, 1), (2, 1)]
    ∧ getActivityHeatmapData demoHeatRows
        = [("Pazartesi", [(1, 1), (2, 0)]), ("Salı", [(1, 0), (2, 1)])]
    ∧ 0 < ((1, 1) : Nat × Nat).2 :=
  ⟨by decide, by decide,
   (histograms_not_zero_filled demoHeatRows).2.1 (1, 1) (by decide)⟩
